import Mathlib

/-!
Verification of the transaction assembly, address-derivation, signing and
submission pipeline used by the bootcamp scripts
(`src/quest-1/scripts/2.complexTransaction.ts`,
`src/quest-1/scripts/4.mintTokens.ts` and the unnamed token scripts).

The pipeline itself (message compilation, program-address derivation,
signing, submission) lives in the `@solana/web3.js` / `@/lib/helpers`
collaborators, which are not part of this repository's sources; those
components are modelled from the specification (each such definition says so
in its doc comment).  The script-level control flow (local-key guard,
conditional account creation and signer selection) is embedded directly from
the TypeScript sources.

Addresses, digests and opaque payload bytes are modelled as natural numbers.
-/

instance {ε α : Type} [DecidableEq ε] [DecidableEq α] : DecidableEq (Except ε α) := fun x y =>
  match x, y with
  | .ok a, .ok b => if h : a = b then .isTrue (by rw [h]) else .isFalse (by simp [h])
  | .error e, .error f => if h : e = f then .isTrue (by rw [h]) else .isFalse (by simp [h])
  | .ok _, .error _ => .isFalse (by simp)
  | .error _, .ok _ => .isFalse (by simp)

/-- Modelled from the spec: an account reference occurring in an operation —
`{address, isSigner, isWritable}` (§3 AccountReference). -/
structure AccountReference where
  address : Nat
  isSigner : Bool
  isWritable : Bool
deriving DecidableEq, Repr

/-- Modelled from the spec: an operation descriptor — owning program, ordered
account references, opaque payload bytes (§3 OperationDescriptor). -/
structure OperationDescriptor where
  ownerProgram : Nat
  accounts : List AccountReference
  payload : List Nat
deriving DecidableEq, Repr

/-- Modelled from the spec: a compiled message — fee payer, checkpoint
reference, ordered account table with resolved flags, and per-operation
index references into that table (§3 CompiledMessage). -/
structure CompiledMessage where
  feePayer : Nat
  checkpointReference : Nat
  accountTable : List AccountReference
  operationIndices : List (Nat × List Nat)
deriving DecidableEq, Repr

/-- Modelled from the spec: compilation errors (§4.2, §7). -/
inductive CompilationError where
  | emptyOperationList
  | tooManyAccounts
deriving DecidableEq, Repr

/-- First-occurrence deduplication of a list of addresses: keeps the first
occurrence of every address, in first-seen order. -/
def firstSeen : List Nat → List Nat
  | [] => []
  | a :: as => a :: (firstSeen as).filter (fun b => b != a)

/-- The account references contributed by one operation: the invoked program
(read-only non-signer) followed by the operation's account references. -/
def opRefs (op : OperationDescriptor) : List AccountReference :=
  ⟨op.ownerProgram, false, false⟩ :: op.accounts

/-- Modelled from the spec: the raw reference stream a compilation considers —
the fee payer (always signer and writable, seen first so it is hoisted to the
front) followed by every operation's references in order (§3, §4.2). -/
def allRefs (feePayer : Nat) (ops : List OperationDescriptor) : List AccountReference :=
  ⟨feePayer, true, true⟩ :: (ops.map opRefs).flatten

/-- Modelled from the spec: the merged table entry for one address — writable
iff any reference to the address is writable, signer iff any reference is a
signer (§3: flags merged by logical OR). -/
def mergedEntry (rs : List AccountReference) (a : Nat) : AccountReference :=
  { address := a,
    isSigner := rs.any (fun r => r.address == a && r.isSigner),
    isWritable := rs.any (fun r => r.address == a && r.isWritable) }

/-- Modelled from the spec: the deduplicated account table in first-seen
order, one entry per address with OR-merged flags (§3). -/
def mergeRefs (rs : List AccountReference) : List AccountReference :=
  (firstSeen (rs.map (fun r => r.address))).map (mergedEntry rs)

/-- The ordering bucket of a table entry: writable signers, read-only
signers, writable non-signers, read-only non-signers (§3). -/
def bucketRank (r : AccountReference) : Nat :=
  match r.isSigner, r.isWritable with
  | true, true => 0
  | true, false => 1
  | false, true => 2
  | false, false => 3

/-- Modelled from the spec: stable bucket ordering of the merged table —
writable signers, then read-only signers, then writable non-signers, then
read-only non-signers, first-seen order inside each bucket (§3). -/
def orderTable (merged : List AccountReference) : List AccountReference :=
  merged.filter (fun r => bucketRank r == 0) ++ merged.filter (fun r => bucketRank r == 1)
    ++ merged.filter (fun r => bucketRank r == 2) ++ merged.filter (fun r => bucketRank r == 3)

/-- Index of an address in an account table. -/
def idxOfAddr (table : List AccountReference) (a : Nat) : Nat :=
  table.findIdx (fun r => r.address == a)

/-- Modelled from the spec: the wire format's addressable limit on table
entries (§4.2: documented source-format limit, 256). -/
def accountTableLimit : Nat := 256

/-- Modelled from the spec: the deduplicated, OR-merged, bucket-ordered
account table a compilation produces (§3, §4.2). -/
def compiledTable (feePayer : Nat) (operations : List OperationDescriptor) :
    List AccountReference :=
  orderTable (mergeRefs (allRefs feePayer operations))

/-- Modelled from the spec: `compile(feePayer, checkpointReference, operations)`
— builds the account table and per-operation index references; fails with
`EmptyOperationList` on an empty operation list and with `TooManyAccounts`
when the merged table exceeds the addressable limit (§4.2).  Pure function of
its inputs. -/
def compile (feePayer : Nat) (checkpointReference : Nat)
    (operations : List OperationDescriptor) : Except CompilationError CompiledMessage :=
  if operations.isEmpty then .error .emptyOperationList
  else if accountTableLimit < (mergeRefs (allRefs feePayer operations)).length then
    .error .tooManyAccounts
  else
    .ok { feePayer := feePayer,
          checkpointReference := checkpointReference,
          accountTable := compiledTable feePayer operations,
          operationIndices := operations.map (fun op =>
            (idxOfAddr (compiledTable feePayer operations) op.ownerProgram,
             op.accounts.map (fun r =>
               idxOfAddr (compiledTable feePayer operations) r.address))) }

/-! ### AddressDeriver (§4.1) -/

/-- Modelled from the spec: derivation error (§4.1 `NoValidBumpFound`). -/
inductive DerivationError where
  | noValidBumpFound
deriving DecidableEq, Repr

/-- Modelled from the spec: the domain-separation constant mixed into every
derivation digest (§4.1); the bytes of the ASCII marker string. -/
def pdaMarker : List Nat :=
  [80, 114, 111, 103, 114, 97, 109, 68, 101, 114, 105, 118, 101, 100,
   65, 100, 100, 114, 101, 115, 115]

/-- Modelled from the spec: the candidate address for one bump value — the
digest `H` of the concatenation of all seeds, the single bump byte, the owner
program identifier and the domain-separation constant (§4.1).  The digest
function `H` and the curve test are abstract parameters of the model. -/
def deriveCandidate (H : List Nat → Nat) (seeds : List (List Nat))
    (ownerProgram : List Nat) (bump : Nat) : Nat :=
  H (seeds.flatten ++ [bump] ++ ownerProgram ++ pdaMarker)

/-- Modelled from the spec: the bump search — try the given bump, accept the
candidate when it is off the signing curve, otherwise continue downward;
fail with `NoValidBumpFound` below bump 0 (§4.1). -/
def deriveFrom (H : List Nat → Nat) (isOnCurve : Nat → Bool) (seeds : List (List Nat))
    (ownerProgram : List Nat) : Nat → Except DerivationError (Nat × Nat)
  | 0 =>
    if isOnCurve (deriveCandidate H seeds ownerProgram 0) then .error .noValidBumpFound
    else .ok (deriveCandidate H seeds ownerProgram 0, 0)
  | b + 1 =>
    if isOnCurve (deriveCandidate H seeds ownerProgram (b + 1)) then
      deriveFrom H isOnCurve seeds ownerProgram b
    else .ok (deriveCandidate H seeds ownerProgram (b + 1), b + 1)

/-- Modelled from the spec: `derive(seeds, ownerProgram)` — bump values are
tried from 255 down to 0, the first off-curve candidate is returned together
with its bump (§4.1). -/
def derive (H : List Nat → Nat) (isOnCurve : Nat → Bool) (seeds : List (List Nat))
    (ownerProgram : List Nat) : Except DerivationError (Nat × Nat) :=
  deriveFrom H isOnCurve seeds ownerProgram 255

/-! ### TransactionAssembler (§4.3) -/

/-- Modelled from the spec: a private signing key, identified by the address
it controls. -/
structure SigningKey where
  addr : Nat
deriving DecidableEq, Repr

/-- Symbolic signature model: a signature is the pair of the signing address
and the exact bytes signed; it verifies against an address and a byte string
iff both match. -/
structure Signature where
  signerAddress : Nat
  signedBytes : List Nat
deriving DecidableEq, Repr

/-- Produce the (symbolic) signature of a key over a byte string. -/
def signBytes (k : SigningKey) (msg : List Nat) : Signature :=
  ⟨k.addr, msg⟩

/-- Check a (symbolic) signature against an address and a byte string. -/
def verifySignature (a : Nat) (s : Signature) (msg : List Nat) : Bool :=
  s.signerAddress == a && s.signedBytes == msg

/-- Serialize one table entry. -/
def serializeAccountReference (r : AccountReference) : List Nat :=
  [r.address, if r.isSigner then 1 else 0, if r.isWritable then 1 else 0]

/-- Modelled from the spec: the canonical byte form of a compiled message
(§4.3 step 2); the exact encoding is opaque to the claims, only that it is a
pure function of the message matters. -/
def serializeMessage (m : CompiledMessage) : List Nat :=
  m.feePayer :: m.checkpointReference :: m.accountTable.length ::
    ((m.accountTable.map serializeAccountReference).flatten
      ++ (m.operationIndices.map (fun p => p.1 :: p.2)).flatten)

/-- Modelled from the spec: assembly errors (§4.3, §7). -/
inductive AssemblyError where
  | missingSigner (address : Nat)
  | unusedSigner (address : Nat)
deriving DecidableEq, Repr

/-- Modelled from the spec: a signed unit — the compiled message plus one
signature per signer-flagged table entry, in table order (§3 SignedUnit). -/
structure SignedUnit where
  message : CompiledMessage
  signatures : List (Nat × Signature)
deriving DecidableEq, Repr

/-- The addresses flagged signer in a message's account table, in table
order. -/
def requiredSigners (m : CompiledMessage) : List Nat :=
  (m.accountTable.filter (fun r => r.isSigner)).map (fun r => r.address)

/-- Modelled from the spec: `assemble(message, signingKeys)` — fails with
`MissingSigner` when a required signer has no key, with `UnusedSigner` when a
supplied key is not required, and otherwise signs the serialized message with
every required key, signatures in table order (§4.3). -/
def assemble (m : CompiledMessage) (signingKeys : List SigningKey) :
    Except AssemblyError SignedUnit :=
  match (requiredSigners m).find? (fun a => !signingKeys.any (fun k => k.addr == a)) with
  | some a => .error (.missingSigner a)
  | none =>
    match signingKeys.find? (fun k => !(requiredSigners m).contains k.addr) with
    | some k => .error (.unusedSigner k.addr)
    | none =>
      .ok { message := m,
            signatures := (requiredSigners m).map
              (fun a => (a, signBytes ⟨a⟩ (serializeMessage m))) }

/-! ### Submitter (§4.4) -/

/-- Content-derived identifier of a signature. -/
def identifierOfSignature (s : Signature) : Nat :=
  s.signedBytes.foldl (fun acc b => acc * 1000003 + b + 1) (s.signerAddress + 1)

/-- Modelled from the spec: the unit's identifier, derived from the unit's
first signature, purely from content and before any network call (§3
SubmissionOutcome, §4.4). -/
def unitIdentifier (u : SignedUnit) : Option Nat :=
  u.signatures.head?.map (fun p => identifierOfSignature p.2)

/-- Modelled from the spec: the endpoint's answer to a submission — either
acceptance, or a rejection carrying a reason code and a structured error
payload of tagged fields (§4.4). -/
inductive RpcResponse where
  | accepted
  | rejected (reason : Nat) (payload : List (Nat × Nat))
deriving DecidableEq, Repr

/-- Modelled from the spec: submission outcomes (§3 SubmissionOutcome). -/
inductive SubmissionOutcome where
  | accepted (identifier : Option Nat)
  | rejected (reason : Nat) (identifier : Option Nat)
deriving DecidableEq, Repr

/-- The payload tag under which a rejection may still report the identifier
the ledger assigned before rejecting. -/
def identifierTag : Nat := 0

/-- Modelled from the spec: best-effort extraction of an identifier from a
rejection's error payload — a fallible lookup returning an optional
identifier (§4.4, §9). -/
def extractIdentifierFromFailure (payload : List (Nat × Nat)) : Option Nat :=
  (payload.find? (fun p => p.1 == identifierTag)).map (fun p => p.2)

/-- Modelled from the spec: `submit(unit, endpoint)` — the identifier is
computed from the unit's first signature before the network call; on success
the outcome is `Accepted` with exactly that identifier, on rejection the
outcome is `Rejected` with the reason and whatever identifier the error
payload yields (§4.4).  The endpoint's behaviour is the `response`
argument. -/
def submit (u : SignedUnit) (response : RpcResponse) : SubmissionOutcome :=
  let ident := unitIdentifier u
  match response with
  | .accepted => .accepted ident
  | .rejected reason payload => .rejected reason (extractIdentifierFromFailure payload)

/-! ### Script control flow (from the sources under `src/`) -/

/-- The effectful steps a script run may take after loading its local keys;
used to embed the scripts' control flow. -/
inductive ScriptAction where
  | loadKeys
  | deriveAddress
  | buildInstruction
  | buildTx
  | submitTx
deriving DecidableEq, Repr

/-- `loadPublicKeysFromFile` result followed by the `localKeys?.tokenMint`
access: `none` when the cache file is absent or has no `tokenMint` entry
(src/quest-1/scripts/4.mintTokens.ts lines 21-28). -/
def lookupTokenMint (localKeys : Option (List (String × Nat))) : Option Nat :=
  localKeys.bind (fun m => m.lookup "tokenMint")

/-- Control flow of src/quest-1/scripts/4.mintTokens.ts: load the local keys,
return immediately when there is no `tokenMint` entry, otherwise derive the
associated token account, build the mint instruction and transaction, and
submit it. -/
def mintTokensScript (localKeys : Option (List (String × Nat))) : List ScriptAction :=
  match lookupTokenMint localKeys with
  | none => [.loadKeys]
  | some _ => [.loadKeys, .deriveAddress, .buildInstruction, .buildTx, .submitTx]

/-- Control flow of the update-metadata script
(src/quest-1/scripts/2.complexTransaction.ts lines 256-263 of the second
document): load the local keys, return immediately when there is no
`tokenMint` entry, otherwise derive the metadata address, build the update
instruction and transaction, and submit it. -/
def updateMetadataScript (localKeys : Option (List (String × Nat))) : List ScriptAction :=
  match lookupTokenMint localKeys with
  | none => [.loadKeys]
  | some _ => [.loadKeys, .deriveAddress, .buildInstruction, .buildTx, .submitTx]

/-- The system program's address in the model. -/
def systemProgramId : Nat := 0

/-- `SystemProgram.createAccount`: funding account and new account are both
writable signers; payload records the instruction index, lamports and space
(src/quest-1/scripts/2.complexTransaction.ts lines 59-70). -/
def createAccountOp (fromAddr newAddr lamports space : Nat) : OperationDescriptor :=
  { ownerProgram := systemProgramId,
    accounts := [⟨fromAddr, true, true⟩, ⟨newAddr, true, true⟩],
    payload := [0, lamports, space] }

/-- `SystemProgram.transfer`: the source must sign, the destination is a
writable non-signer (src/quest-1/scripts/2.complexTransaction.ts
lines 85-92). -/
def transferOp (fromAddr toAddr lamports : Nat) : OperationDescriptor :=
  { ownerProgram := systemProgramId,
    accounts := [⟨fromAddr, true, true⟩, ⟨toAddr, false, true⟩],
    payload := [2, lamports] }

/-- Environment of one run of src/quest-1/scripts/2.complexTransaction.ts:
the three wallet addresses, the rent-exemption cost the RPC reports, and the
result of `getAccountInfo(testWallet.publicKey)` (`none` when the account
does not exist on chain). -/
structure ComplexTxEnv where
  payerAddr : Nat
  testWalletAddr : Nat
  staticAddr : Nat
  rentExemption : Nat
  testWalletAccountInfo : Option Nat
deriving DecidableEq, Repr

/-- The conditional account-creation instruction: built exactly when
`getAccountInfo` returned `null`
(src/quest-1/scripts/2.complexTransaction.ts lines 40-75). -/
def createTestAccountIx (env : ComplexTxEnv) : Option OperationDescriptor :=
  match env.testWalletAccountInfo with
  | none => some (createAccountOp env.payerAddr env.testWalletAddr
      (env.rentExemption + 2000000) 0)
  | some _ => none

/-- The instruction list the script compiles: the optional account creation
followed by the three transfers, in source order
(src/quest-1/scripts/2.complexTransaction.ts lines 125-140). -/
def complexTxInstructions (env : ComplexTxEnv) : List OperationDescriptor :=
  (match createTestAccountIx env with
   | some ix => [ix]
   | none => []) ++
  [transferOp env.payerAddr env.staticAddr 100000,
   transferOp env.payerAddr env.testWalletAddr 100000,
   transferOp env.payerAddr env.staticAddr 100000]

/-- The signer set the script passes to `tx.sign`: always the payer, plus the
test wallet exactly when the account-creation instruction was added
(src/quest-1/scripts/2.complexTransaction.ts lines 167-173). -/
def complexTxSigners (env : ComplexTxEnv) : List Nat :=
  [env.payerAddr] ++
  (match createTestAccountIx env with
   | some _ => [env.testWalletAddr]
   | none => [])

/-! ### Concrete inputs used by the witnesses -/

def exOpsC1 : List OperationDescriptor := [transferOp 2 3 10, transferOp 2 4 10]

def exMsgC1 : CompiledMessage :=
  { feePayer := 1, checkpointReference := 0,
    accountTable := [⟨1, true, true⟩, ⟨2, true, true⟩, ⟨3, false, true⟩,
                     ⟨4, false, true⟩, ⟨0, false, false⟩],
    operationIndices := [(4, [1, 2]), (4, [1, 3])] }

def exOpsC2 : List OperationDescriptor := [transferOp 2 3 5, transferOp 3 2 6]

def exMsgC2 : CompiledMessage :=
  { feePayer := 1, checkpointReference := 9,
    accountTable := [⟨1, true, true⟩, ⟨2, true, true⟩, ⟨3, true, true⟩, ⟨0, false, false⟩],
    operationIndices := [(3, [1, 2]), (3, [2, 1])] }

def exOpsC7big : List OperationDescriptor :=
  [{ ownerProgram := 0,
     accounts := (List.range 257).map (fun i => ⟨i + 1, false, false⟩),
     payload := [] }]

def exOpsC7small : List OperationDescriptor := [transferOp 2 3 1]

def exOpsC8a : List OperationDescriptor :=
  [{ ownerProgram := 0, accounts := [⟨1, false, false⟩], payload := [] },
   { ownerProgram := 0, accounts := [⟨2, false, false⟩], payload := [] }]

def exOpsC8b : List OperationDescriptor :=
  [{ ownerProgram := 0, accounts := [⟨2, false, false⟩], payload := [] },
   { ownerProgram := 0, accounts := [⟨1, false, false⟩], payload := [] }]

def exMsgC8a : CompiledMessage :=
  { feePayer := 9, checkpointReference := 0,
    accountTable := [⟨9, true, true⟩, ⟨0, false, false⟩, ⟨1, false, false⟩,
                     ⟨2, false, false⟩],
    operationIndices := [(1, [2]), (1, [3])] }

def exMsgC8b : CompiledMessage :=
  { feePayer := 9, checkpointReference := 0,
    accountTable := [⟨9, true, true⟩, ⟨0, false, false⟩, ⟨2, false, false⟩,
                     ⟨1, false, false⟩],
    operationIndices := [(1, [2]), (1, [3])] }

def exMsgC5 : CompiledMessage :=
  { feePayer := 1, checkpointReference := 0,
    accountTable := [⟨1, true, true⟩, ⟨2, false, true⟩],
    operationIndices := [(1, [0])] }

def exKeysC5 : List SigningKey := [⟨1⟩]

def exMsgC6 : CompiledMessage :=
  { feePayer := 9, checkpointReference := 0,
    accountTable := [⟨9, true, true⟩], operationIndices := [] }

def exUnitC6 : SignedUnit :=
  { message := exMsgC6, signatures := [(9, ⟨9, [1, 2, 3]⟩)] }

/-! ### Helper lemmas about the merged, ordered account table -/

theorem mem_firstSeen {b : Nat} : ∀ {l : List Nat}, b ∈ firstSeen l ↔ b ∈ l := by
  intro l
  induction l with
  | nil => simp [firstSeen]
  | cons a as ih =>
    by_cases hba : b = a
    · subst hba; simp [firstSeen]
    · simp [firstSeen, List.mem_filter, hba, ih]

theorem firstSeen_nodup : ∀ (l : List Nat), (firstSeen l).Nodup := by
  intro l
  induction l with
  | nil => simp [firstSeen]
  | cons a as ih =>
    simp only [firstSeen, List.nodup_cons]
    refine ⟨?_, ih.filter _⟩
    intro hmem
    have hne := (List.mem_filter.mp hmem).2
    simp at hne

theorem mergedEntry_address (rs : List AccountReference) (a : Nat) :
    (mergedEntry rs a).address = a := rfl

theorem mergeRefs_map_address (rs : List AccountReference) :
    (mergeRefs rs).map (fun r => r.address) = firstSeen (rs.map (fun r => r.address)) := by
  simp [mergeRefs, List.map_map, Function.comp_def, mergedEntry]

theorem mergeRefs_nodup (rs : List AccountReference) :
    ((mergeRefs rs).map (fun r => r.address)).Nodup := by
  rw [mergeRefs_map_address]; exact firstSeen_nodup _

theorem mem_mergeRefs (rs : List AccountReference) (e : AccountReference) :
    e ∈ mergeRefs rs ↔
      e.address ∈ rs.map (fun r => r.address) ∧ e = mergedEntry rs e.address := by
  constructor
  · intro he
    rcases List.mem_map.mp he with ⟨a, ha, rfl⟩
    rw [mergedEntry_address]
    exact ⟨mem_firstSeen.mp ha, rfl⟩
  · rintro ⟨hmem, heq⟩
    rw [heq]
    exact List.mem_map.mpr ⟨e.address, mem_firstSeen.mpr hmem, rfl⟩

theorem bucketRank_lt_four (r : AccountReference) : bucketRank r < 4 := by
  rcases r with ⟨a, s, w⟩
  cases s <;> cases w <;> simp [bucketRank]

theorem rank_of_mem_filter {l : List AccountReference} {k : Nat} {r : AccountReference}
    (h : r ∈ l.filter (fun r => bucketRank r == k)) : bucketRank r = k := by
  simpa using (List.mem_filter.mp h).2

theorem filter_rank_filter_self (l : List AccountReference) (k : Nat) :
    (l.filter (fun r => bucketRank r == k)).filter (fun r => bucketRank r == k)
      = l.filter (fun r => bucketRank r == k) := by
  rw [List.filter_filter]
  exact List.filter_congr (by intro r _; simp)

theorem filter_rank_filter_ne (l : List AccountReference) (i k : Nat) (h : k ≠ i) :
    (l.filter (fun r => bucketRank r == i)).filter (fun r => bucketRank r == k) = [] := by
  apply List.filter_eq_nil_iff.mpr
  intro r hr
  have hi := rank_of_mem_filter hr
  simp [hi]
  omega

theorem orderTable_pairwise (l : List AccountReference) :
    (orderTable l).Pairwise (fun a b => bucketRank a ≤ bucketRank b) := by
  have hsingle : ∀ k, (l.filter (fun r => bucketRank r == k)).Pairwise
      (fun a b => bucketRank a ≤ bucketRank b) := by
    intro k
    apply List.pairwise_of_forall_mem_list
    intro a ha b hb
    rw [rank_of_mem_filter ha, rank_of_mem_filter hb]
  have hcross : ∀ i k, i ≤ k →
      ∀ a ∈ l.filter (fun r => bucketRank r == i),
      ∀ b ∈ l.filter (fun r => bucketRank r == k), bucketRank a ≤ bucketRank b := by
    intro i k hik a ha b hb
    rw [rank_of_mem_filter ha, rank_of_mem_filter hb]; exact hik
  unfold orderTable
  rw [List.append_assoc, List.append_assoc]
  rw [List.pairwise_append]
  refine ⟨hsingle 0, ?_, ?_⟩
  · rw [List.pairwise_append]
    refine ⟨hsingle 1, ?_, ?_⟩
    · rw [List.pairwise_append]
      refine ⟨hsingle 2, hsingle 3, ?_⟩
      · intro a ha b hb; exact hcross 2 3 (by omega) a ha b hb
    · intro a ha b hb
      rcases List.mem_append.mp hb with hb2 | hb3
      · exact hcross 1 2 (by omega) a ha b hb2
      · exact hcross 1 3 (by omega) a ha b hb3
  · intro a ha b hb
    rcases List.mem_append.mp hb with hb1 | hb'
    · exact hcross 0 1 (by omega) a ha b hb1
    · rcases List.mem_append.mp hb' with hb2 | hb3
      · exact hcross 0 2 (by omega) a ha b hb2
      · exact hcross 0 3 (by omega) a ha b hb3

theorem orderTable_filter (l : List AccountReference) {k : Nat} (hk : k < 4) :
    (orderTable l).filter (fun r => bucketRank r == k)
      = l.filter (fun r => bucketRank r == k) := by
  unfold orderTable
  rw [List.filter_append, List.filter_append, List.filter_append]
  interval_cases k
  · rw [filter_rank_filter_self, filter_rank_filter_ne l 1 0 (by omega),
        filter_rank_filter_ne l 2 0 (by omega), filter_rank_filter_ne l 3 0 (by omega)]
    simp
  · rw [filter_rank_filter_self, filter_rank_filter_ne l 0 1 (by omega),
        filter_rank_filter_ne l 2 1 (by omega), filter_rank_filter_ne l 3 1 (by omega)]
    simp
  · rw [filter_rank_filter_self, filter_rank_filter_ne l 0 2 (by omega),
        filter_rank_filter_ne l 1 2 (by omega), filter_rank_filter_ne l 3 2 (by omega)]
    simp
  · rw [filter_rank_filter_self, filter_rank_filter_ne l 0 3 (by omega),
        filter_rank_filter_ne l 1 3 (by omega), filter_rank_filter_ne l 2 3 (by omega)]
    simp

theorem rank_cases (r : AccountReference) (P : Nat → Prop)
    (h0 : P 0) (h1 : P 1) (h2 : P 2) (h3 : P 3) : P (bucketRank r) := by
  rcases r with ⟨a, s, w⟩
  cases s <;> cases w
  · exact h3
  · exact h2
  · exact h1
  · exact h0

theorem orderTable_perm (l : List AccountReference) : List.Perm (orderTable l) l := by
  have e1 : (l.filter (fun r => !(bucketRank r == 0))).filter (fun r => bucketRank r == 1)
      = l.filter (fun r => bucketRank r == 1) := by
    rw [List.filter_filter]
    apply List.filter_congr
    intro r _
    exact rank_cases r (fun n => ((n == 1) && !(n == 0)) = (n == 1)) rfl rfl rfl rfl
  have e2 : ((l.filter (fun r => !(bucketRank r == 0))).filter
        (fun r => !(bucketRank r == 1))).filter (fun r => bucketRank r == 2)
      = l.filter (fun r => bucketRank r == 2) := by
    rw [List.filter_filter, List.filter_filter]
    apply List.filter_congr
    intro r _
    exact rank_cases r
      (fun n => ((n == 2) && !(n == 1) && !(n == 0)) = (n == 2)) rfl rfl rfl rfl
  have e3 : ((l.filter (fun r => !(bucketRank r == 0))).filter
        (fun r => !(bucketRank r == 1))).filter (fun r => !(bucketRank r == 2))
      = l.filter (fun r => bucketRank r == 3) := by
    rw [List.filter_filter, List.filter_filter]
    apply List.filter_congr
    intro r _
    exact rank_cases r
      (fun n => ((!(n == 2)) && !(n == 1) && !(n == 0)) = (n == 3)) rfl rfl rfl rfl
  have p2 : List.Perm
      (l.filter (fun r => bucketRank r == 2) ++ l.filter (fun r => bucketRank r == 3))
      ((l.filter (fun r => !(bucketRank r == 0))).filter (fun r => !(bucketRank r == 1))) := by
    rw [← e2, ← e3]
    exact List.filter_append_perm _ _
  have p1 : List.Perm
      (l.filter (fun r => bucketRank r == 1)
        ++ (l.filter (fun r => bucketRank r == 2) ++ l.filter (fun r => bucketRank r == 3)))
      (l.filter (fun r => !(bucketRank r == 0))) := by
    have p1a := List.Perm.append_left (l.filter (fun r => bucketRank r == 1)) p2
    have p1c := List.filter_append_perm (fun r => bucketRank r == 1)
      (l.filter (fun r => !(bucketRank r == 0)))
    rw [e1] at p1c
    exact p1a.trans p1c
  have hassoc : orderTable l
      = l.filter (fun r => bucketRank r == 0)
        ++ (l.filter (fun r => bucketRank r == 1)
          ++ (l.filter (fun r => bucketRank r == 2)
            ++ l.filter (fun r => bucketRank r == 3))) := by
    simp [orderTable, List.append_assoc]
  rw [hassoc]
  have p0 := List.Perm.append_left (l.filter (fun r => bucketRank r == 0)) p1
  exact p0.trans (List.filter_append_perm _ _)

theorem compiledTable_perm (fp : Nat) (ops : List OperationDescriptor) :
    List.Perm (compiledTable fp ops) (mergeRefs (allRefs fp ops)) :=
  orderTable_perm _

theorem compile_ok_iff {fp cp : Nat} {ops : List OperationDescriptor} {m : CompiledMessage} :
    compile fp cp ops = .ok m ↔
      ops ≠ [] ∧ (mergeRefs (allRefs fp ops)).length ≤ accountTableLimit ∧
      m = { feePayer := fp, checkpointReference := cp,
            accountTable := compiledTable fp ops,
            operationIndices := ops.map (fun op =>
              (idxOfAddr (compiledTable fp ops) op.ownerProgram,
               op.accounts.map (fun r => idxOfAddr (compiledTable fp ops) r.address))) } := by
  unfold compile
  split
  · next h =>
    simp only [List.isEmpty_iff] at h
    simp [h]
  · next h =>
    simp only [List.isEmpty_iff] at h
    split
    · next h2 =>
      constructor
      · intro habs; cases habs
      · rintro ⟨-, hle, -⟩; omega
    · next h2 =>
      constructor
      · intro hok
        refine ⟨h, by omega, ?_⟩
        cases hok
        rfl
      · rintro ⟨-, -, rfl⟩
        rfl

theorem compile_ok_table {fp cp : Nat} {ops : List OperationDescriptor} {m : CompiledMessage}
    (h : compile fp cp ops = .ok m) : m.accountTable = compiledTable fp ops := by
  rcases compile_ok_iff.mp h with ⟨-, -, rfl⟩
  rfl

/-! ### Claim theorems -/

theorem mergeRefs_allRefs_head (fp : Nat) (ops : List OperationDescriptor) :
    (mergeRefs (allRefs fp ops)).head? = some ⟨fp, true, true⟩ := by
  simp [mergeRefs, allRefs, firstSeen, mergedEntry]

/-- C1: for every non-empty operation list, a successfully compiled message's
account table places the fee payer at index 0 flagged signer and writable,
is ordered by bucket (writable signers, read-only signers, writable
non-signers, read-only non-signers), and each bucket preserves the first-seen
order of the merged reference stream. -/
theorem compile_table_bucket_ordering (fp cp : Nat) (ops : List OperationDescriptor)
    (m : CompiledMessage) (_hne : ops ≠ []) (hok : compile fp cp ops = .ok m) :
    m.accountTable.head? = some ⟨fp, true, true⟩
    ∧ m.accountTable.Pairwise (fun a b => bucketRank a ≤ bucketRank b)
    ∧ (∀ k, k < 4 → m.accountTable.filter (fun r => bucketRank r == k)
        = (mergeRefs (allRefs fp ops)).filter (fun r => bucketRank r == k)) := by
  have ht := compile_ok_table hok
  rw [ht]
  have hh := mergeRefs_allRefs_head fp ops
  refine ⟨?_, orderTable_pairwise _, fun k hk => orderTable_filter _ hk⟩
  cases hm : mergeRefs (allRefs fp ops) with
  | nil => rw [hm] at hh; cases hh
  | cons e t =>
    rw [hm] at hh
    have he : e = ⟨fp, true, true⟩ := by
      have := List.head?_cons (a := e) (l := t)
      rw [this] at hh
      exact Option.some.inj hh
    subst he
    show (orderTable (mergeRefs (allRefs fp ops))).head? = _
    rw [hm]
    simp [orderTable, List.filter_cons, bucketRank]

/-- Witness for C1: the spec's end-to-end scenario — two transfers from the
same writable signer to two distinct recipients. -/
theorem compile_table_bucket_ordering_witness :
    exOpsC1 ≠ [] ∧
    (exMsgC1.accountTable.head? = some ⟨1, true, true⟩
      ∧ exMsgC1.accountTable.Pairwise (fun a b => bucketRank a ≤ bucketRank b)
      ∧ (∀ k, k < 4 → exMsgC1.accountTable.filter (fun r => bucketRank r == k)
          = (mergeRefs (allRefs 1 exOpsC1)).filter (fun r => bucketRank r == k))) :=
  ⟨by decide, compile_table_bucket_ordering 1 0 exOpsC1 exMsgC1 (by decide) (by decide)⟩

/-- C2: every successfully compiled account table has at most one entry per
address, with the writable flag the logical OR of the writable flags of all
references to that address and the signer flag the OR of the signer flags. -/
theorem compile_table_merged_flags (fp cp : Nat) (ops : List OperationDescriptor)
    (m : CompiledMessage) (hok : compile fp cp ops = .ok m) :
    (m.accountTable.map (fun r => r.address)).Nodup
    ∧ ∀ e, e ∈ m.accountTable ↔
        (e.address ∈ (allRefs fp ops).map (fun r => r.address)
         ∧ e.isSigner = (allRefs fp ops).any (fun r => r.address == e.address && r.isSigner)
         ∧ e.isWritable
             = (allRefs fp ops).any (fun r => r.address == e.address && r.isWritable)) := by
  have ht := compile_ok_table hok
  rw [ht]
  constructor
  · have hperm := (compiledTable_perm fp ops).map (fun r => r.address)
    exact hperm.nodup_iff.mpr (mergeRefs_nodup _)
  · intro e
    rw [(compiledTable_perm fp ops).mem_iff, mem_mergeRefs]
    constructor
    · rintro ⟨ha, he⟩
      refine ⟨ha, ?_, ?_⟩
      · conv_lhs => rw [he]
        rfl
      · conv_lhs => rw [he]
        rfl
    · rintro ⟨ha, hs, hw⟩
      refine ⟨ha, ?_⟩
      rcases e with ⟨a, s, w⟩
      simp only at hs hw
      simp only [mergedEntry]
      rw [hs, hw]

/-- Witness for C2: the same two addresses appear in both transfers with
different flags; each ends up once in the table with OR-merged flags. -/
theorem compile_table_merged_flags_witness :
    compile 1 9 exOpsC2 = .ok exMsgC2 ∧
    ((exMsgC2.accountTable.map (fun r => r.address)).Nodup
      ∧ ∀ e, e ∈ exMsgC2.accountTable ↔
          (e.address ∈ (allRefs 1 exOpsC2).map (fun r => r.address)
           ∧ e.isSigner = (allRefs 1 exOpsC2).any (fun r => r.address == e.address && r.isSigner)
           ∧ e.isWritable
               = (allRefs 1 exOpsC2).any (fun r => r.address == e.address && r.isWritable))) :=
  ⟨by decide, compile_table_merged_flags 1 9 exOpsC2 exMsgC2 (by decide)⟩

/-- C7: compilation fails with `EmptyOperationList` on the empty operation
list, fails with `TooManyAccounts` whenever the merged table exceeds the
256-entry addressable limit, and succeeds on every other input. -/
theorem compile_failure_modes (fp cp : Nat) (ops : List OperationDescriptor) :
    compile fp cp [] = (.error .emptyOperationList : Except CompilationError CompiledMessage)
    ∧ (ops ≠ [] → accountTableLimit < (mergeRefs (allRefs fp ops)).length →
        compile fp cp ops = .error .tooManyAccounts)
    ∧ (ops ≠ [] → (mergeRefs (allRefs fp ops)).length ≤ accountTableLimit →
        ∃ m, compile fp cp ops = .ok m) := by
  refine ⟨rfl, ?_, ?_⟩
  · intro hne hgt
    cases ops with
    | nil => exact absurd rfl hne
    | cons o os =>
      unfold compile
      rw [if_neg (by simp), if_pos hgt]
  · intro hne hle
    cases ops with
    | nil => exact absurd rfl hne
    | cons o os =>
      exact ⟨_, compile_ok_iff.mpr ⟨hne, hle, rfl⟩⟩

set_option maxRecDepth 100000 in
/-- Witness for C7: a single operation touching 257 distinct accounts
overflows the table; a small transfer compiles. -/
theorem compile_failure_modes_witness :
    (compile 300 0 [] = (.error .emptyOperationList : Except CompilationError CompiledMessage))
    ∧ (exOpsC7big ≠ [] ∧ accountTableLimit < (mergeRefs (allRefs 300 exOpsC7big)).length
        ∧ compile 300 0 exOpsC7big = .error .tooManyAccounts)
    ∧ (exOpsC7small ≠ [] ∧ (mergeRefs (allRefs 1 exOpsC7small)).length ≤ accountTableLimit
        ∧ ∃ m, compile 1 0 exOpsC7small = .ok m) :=
  ⟨(compile_failure_modes 300 0 exOpsC7big).1,
   ⟨by decide, by decide,
    (compile_failure_modes 300 0 exOpsC7big).2.1 (by decide) (by decide)⟩,
   ⟨by decide, by decide,
    (compile_failure_modes 1 0 exOpsC7small).2.2 (by decide) (by decide)⟩⟩

theorem any_perm {α : Type} {l1 l2 : List α} (h : List.Perm l1 l2) (p : α → Bool) :
    l1.any p = l2.any p := by
  apply Bool.eq_iff_iff.mpr
  simp only [List.any_eq_true]
  constructor
  · rintro ⟨a, ha, hp⟩; exact ⟨a, h.mem_iff.mp ha, hp⟩
  · rintro ⟨a, ha, hp⟩; exact ⟨a, h.mem_iff.mpr ha, hp⟩

theorem firstSeen_perm {l1 l2 : List Nat} (h : List.Perm l1 l2) :
    List.Perm (firstSeen l1) (firstSeen l2) := by
  apply (List.perm_ext_iff_of_nodup (firstSeen_nodup _) (firstSeen_nodup _)).mpr
  intro a
  rw [mem_firstSeen, mem_firstSeen]
  exact h.mem_iff

theorem mergeRefs_perm {rs1 rs2 : List AccountReference} (h : List.Perm rs1 rs2) :
    List.Perm (mergeRefs rs1) (mergeRefs rs2) := by
  unfold mergeRefs
  have hfs : List.Perm (firstSeen (rs1.map (fun r => r.address)))
      (firstSeen (rs2.map (fun r => r.address))) := firstSeen_perm (h.map _)
  have hmap : (firstSeen (rs2.map (fun r => r.address))).map (mergedEntry rs1)
      = (firstSeen (rs2.map (fun r => r.address))).map (mergedEntry rs2) :=
    List.map_congr_left (fun a _ => by
      unfold mergedEntry
      rw [any_perm h, any_perm h])
  have hm := hfs.map (mergedEntry rs1)
  rw [hmap] at hm
  exact hm

theorem allRefs_perm (fp : Nat) {ops ops2 : List OperationDescriptor}
    (h : List.Perm ops ops2) : List.Perm (allRefs fp ops) (allRefs fp ops2) :=
  List.Perm.cons _ ((h.map opRefs).flatten)

/-- Counterexample to C8 as stated: two operations that reference disjoint
accounts, compiled in both orders — the lists are permutations of each other,
yet the compiled account tables differ (the read-only non-signer bucket keeps
first-seen order, which the reordering changes). -/
theorem compile_perm_counterexample :
    List.Perm exOpsC8a exOpsC8b
    ∧ (∀ r ∈ (exOpsC8a.head?.map OperationDescriptor.accounts).getD [],
        ∀ r2 ∈ ((exOpsC8a.drop 1).head?.map OperationDescriptor.accounts).getD [],
          r.address ≠ r2.address)
    ∧ (compile 9 0 exOpsC8a).toOption.map CompiledMessage.accountTable
        ≠ (compile 9 0 exOpsC8b).toOption.map CompiledMessage.accountTable := by
  decide

/-- C8 (amended): compiling two operation lists that are permutations of each
other yields account tables that are permutations of each other — the same
entries with the same OR-merged flags — though the ordered tables may differ
when the reordering changes first-seen order. -/
theorem compile_perm_tables (fp cp cp2 : Nat) (ops ops2 : List OperationDescriptor)
    (hperm : List.Perm ops ops2) (m m2 : CompiledMessage)
    (hok : compile fp cp ops = .ok m) (hok2 : compile fp cp2 ops2 = .ok m2) :
    List.Perm m.accountTable m2.accountTable := by
  rw [compile_ok_table hok, compile_ok_table hok2]
  have h1 := compiledTable_perm fp ops
  have h2 := compiledTable_perm fp ops2
  exact (h1.trans (mergeRefs_perm (allRefs_perm fp hperm))).trans h2.symm

/-- Witness for the amended C8: the two differently-ordered tables of the
counterexample are indeed permutations of each other. -/
theorem compile_perm_tables_witness :
    List.Perm exOpsC8a exOpsC8b
    ∧ compile 9 0 exOpsC8a = .ok exMsgC8a
    ∧ compile 9 0 exOpsC8b = .ok exMsgC8b
    ∧ List.Perm exMsgC8a.accountTable exMsgC8b.accountTable :=
  ⟨by decide, by decide, by decide,
   compile_perm_tables 9 0 0 exOpsC8a exOpsC8b (by decide) exMsgC8a exMsgC8b
     (by decide) (by decide)⟩

theorem deriveFrom_ok {H : List Nat → Nat} {isOnCurve : Nat → Bool}
    {seeds : List (List Nat)} {owner : List Nat} :
    ∀ {fuel a b}, deriveFrom H isOnCurve seeds owner fuel = .ok (a, b) →
      isOnCurve a = false ∧ a = deriveCandidate H seeds owner b ∧ b ≤ fuel
      ∧ ∀ b2, b < b2 → b2 ≤ fuel → isOnCurve (deriveCandidate H seeds owner b2) = true := by
  intro fuel
  induction fuel with
  | zero =>
    intro a b h
    unfold deriveFrom at h
    by_cases hc : isOnCurve (deriveCandidate H seeds owner 0)
    · rw [if_pos hc] at h; cases h
    · rw [if_neg hc] at h
      have h2 := Except.ok.inj h
      cases h2
      refine ⟨Bool.eq_false_iff.mpr hc, rfl, Nat.le_refl 0, ?_⟩
      intro b2 hgt hle
      omega
  | succ n ih =>
    intro a b h
    unfold deriveFrom at h
    by_cases hc : isOnCurve (deriveCandidate H seeds owner (n + 1))
    · rw [if_pos hc] at h
      obtain ⟨h1, h2, h3, h4⟩ := ih h
      refine ⟨h1, h2, by omega, ?_⟩
      intro b2 hgt hle
      rcases Nat.lt_or_ge b2 (n + 1) with hlt | hge
      · exact h4 b2 hgt (by omega)
      · have hb2 : b2 = n + 1 := by omega
        subst hb2
        exact hc
    · rw [if_neg hc] at h
      have h2 := Except.ok.inj h
      cases h2
      refine ⟨Bool.eq_false_iff.mpr hc, rfl, Nat.le_refl _, ?_⟩
      intro b2 hgt hle
      omega

theorem deriveFrom_error {H : List Nat → Nat} {isOnCurve : Nat → Bool}
    {seeds : List (List Nat)} {owner : List Nat} :
    ∀ {fuel}, deriveFrom H isOnCurve seeds owner fuel = .error .noValidBumpFound ↔
      ∀ b, b ≤ fuel → isOnCurve (deriveCandidate H seeds owner b) = true := by
  intro fuel
  induction fuel with
  | zero =>
    unfold deriveFrom
    by_cases hc : isOnCurve (deriveCandidate H seeds owner 0)
    · rw [if_pos hc]
      constructor
      · intro _ b hb
        have hb0 : b = 0 := Nat.le_zero.mp hb
        subst hb0
        exact hc
      · intro _; rfl
    · rw [if_neg hc]
      constructor
      · intro h; cases h
      · intro h
        exact absurd (h 0 (Nat.le_refl 0)) (by simp [Bool.eq_false_iff.mpr hc])
  | succ n ih =>
    unfold deriveFrom
    by_cases hc : isOnCurve (deriveCandidate H seeds owner (n + 1))
    · rw [if_pos hc, ih]
      constructor
      · intro h b hb
        rcases Nat.lt_or_ge b (n + 1) with hlt | hge
        · exact h b (by omega)
        · have hb2 : b = n + 1 := by omega
          subst hb2
          exact hc
      · intro h b hb
        exact h b (by omega)
    · rw [if_neg hc]
      constructor
      · intro h; cases h
      · intro h
        exact absurd (h (n + 1) (Nat.le_refl _)) (by simp [Bool.eq_false_iff.mpr hc])

/-- C3: `derive` tries bumps from 255 down to 0 over the digest of
seeds ++ bump ++ owner ++ domain-separation constant, returns the first
off-curve candidate together with its bump (so every returned address is off
the signing curve, and every higher bump was on-curve), and fails with
`NoValidBumpFound` exactly when every bump in range yields an on-curve
candidate. -/
theorem derive_spec (H : List Nat → Nat) (isOnCurve : Nat → Bool)
    (seeds : List (List Nat)) (owner : List Nat) :
    (∀ a b, derive H isOnCurve seeds owner = .ok (a, b) →
        isOnCurve a = false
        ∧ a = deriveCandidate H seeds owner b
        ∧ b ≤ 255
        ∧ ∀ b2, b < b2 → b2 ≤ 255 →
            isOnCurve (deriveCandidate H seeds owner b2) = true)
    ∧ (derive H isOnCurve seeds owner = .error .noValidBumpFound ↔
        ∀ b, b ≤ 255 → isOnCurve (deriveCandidate H seeds owner b) = true) :=
  ⟨fun _ _ h => deriveFrom_ok h, deriveFrom_error⟩

/-- Witness for C3: with a sum digest and a parity curve test, bump 255 is
on-curve and bump 254 yields the first off-curve candidate. -/
theorem derive_spec_witness :
    derive (fun l => l.foldl (fun acc x => acc + x) 0) (fun n => n % 2 == 0)
        [[1], [2]] [3] = .ok (2405, 254)
    ∧ (fun n => n % 2 == 0) 2405 = false :=
  ⟨by decide,
   ((derive_spec (fun l => l.foldl (fun acc x => acc + x) 0) (fun n => n % 2 == 0)
       [[1], [2]] [3]).1 2405 254 (by decide)).1⟩

/-- C4: `derive` is deterministic — two calls with identical seed sequences
and owner programs return identical results, address and bump alike. -/
theorem derive_deterministic (H : List Nat → Nat) (isOnCurve : Nat → Bool)
    (s1 s2 : List (List Nat)) (o1 o2 : List Nat) (hs : s1 = s2) (ho : o1 = o2) :
    derive H isOnCurve s1 o1 = derive H isOnCurve s2 o2 := by
  rw [hs, ho]

/-- Witness for C4: repeated derivation from identical concrete inputs. -/
theorem derive_deterministic_witness :
    derive (fun l => l.foldl (fun acc x => acc + x) 0) (fun n => n % 2 == 0) [[4]] [7]
      = derive (fun l => l.foldl (fun acc x => acc + x) 0) (fun n => n % 2 == 0) [[4]] [7]
    ∧ derive (fun l => l.foldl (fun acc x => acc + x) 0) (fun n => n % 2 == 0) [[4]] [7]
      = .ok (2411, 255) :=
  ⟨derive_deterministic _ _ [[4]] [[4]] [7] [7] rfl rfl, by decide⟩

/-- C5: `assemble` fails with `MissingSigner` when some required signer has
no supplied key, fails with `UnusedSigner` when a supplied key is not a
required signer, and when the supplied keys exactly cover the required set it
succeeds with a unit carrying one verifying signature per signer-flagged
table entry, in table order — never a partially signed unit. -/
theorem assemble_spec (m : CompiledMessage) (keys : List SigningKey) :
    ((∃ a ∈ requiredSigners m, ∀ k ∈ keys, k.addr ≠ a) →
      ∃ a, assemble m keys = .error (.missingSigner a)
        ∧ a ∈ requiredSigners m ∧ ∀ k ∈ keys, k.addr ≠ a)
    ∧ ((∀ a ∈ requiredSigners m, ∃ k ∈ keys, k.addr = a) →
       (∃ k ∈ keys, k.addr ∉ requiredSigners m) →
        ∃ a, assemble m keys = .error (.unusedSigner a)
          ∧ (∃ k ∈ keys, k.addr = a) ∧ a ∉ requiredSigners m)
    ∧ ((∀ a ∈ requiredSigners m, ∃ k ∈ keys, k.addr = a) →
       (∀ k ∈ keys, k.addr ∈ requiredSigners m) →
        ∃ u, assemble m keys = .ok u
          ∧ u.message = m
          ∧ u.signatures.map Prod.fst = requiredSigners m
          ∧ ∀ p ∈ u.signatures, verifySignature p.1 p.2 (serializeMessage m) = true) := by
  refine ⟨?_, ?_, ?_⟩
  · rintro ⟨a, ha, hnok⟩
    cases hfind : (requiredSigners m).find?
        (fun a => !keys.any (fun k => k.addr == a)) with
    | none =>
      exfalso
      apply List.find?_eq_none.mp hfind a ha
      have hany : keys.any (fun k => k.addr == a) = false :=
        List.any_eq_false.mpr (fun k hk => by simp [hnok k hk])
      simp [hany]
    | some a0 =>
      refine ⟨a0, ?_, List.mem_of_find?_eq_some hfind, ?_⟩
      · unfold assemble
        rw [hfind]
      · have hp := List.find?_some hfind
        intro k hk hke
        have hany : keys.any (fun k => k.addr == a0) = true :=
          List.any_eq_true.mpr ⟨k, hk, by simp [hke]⟩
        rw [hany] at hp
        cases hp
  · intro hcov
    rintro ⟨k, hk, hnotreq⟩
    have hnone : (requiredSigners m).find?
        (fun a => !keys.any (fun k => k.addr == a)) = none := by
      apply List.find?_eq_none.mpr
      intro a ha
      rcases hcov a ha with ⟨k2, hk2, hke2⟩
      have hany : keys.any (fun k => k.addr == a) = true :=
        List.any_eq_true.mpr ⟨k2, hk2, by simp [hke2]⟩
      simp [hany]
    cases hfind2 : keys.find? (fun k => !(requiredSigners m).contains k.addr) with
    | none =>
      exfalso
      apply List.find?_eq_none.mp hfind2 k hk
      simp [hnotreq]
    | some k0 =>
      refine ⟨k0.addr, ?_, ⟨k0, List.mem_of_find?_eq_some hfind2, rfl⟩, ?_⟩
      · unfold assemble
        rw [hnone, hfind2]
      · have hp := List.find?_some hfind2
        simp at hp
        exact hp
  · intro hcov hused
    have hnone : (requiredSigners m).find?
        (fun a => !keys.any (fun k => k.addr == a)) = none := by
      apply List.find?_eq_none.mpr
      intro a ha
      rcases hcov a ha with ⟨k2, hk2, hke2⟩
      have hany : keys.any (fun k => k.addr == a) = true :=
        List.any_eq_true.mpr ⟨k2, hk2, by simp [hke2]⟩
      simp [hany]
    have hnone2 : keys.find? (fun k => !(requiredSigners m).contains k.addr) = none := by
      apply List.find?_eq_none.mpr
      intro k hk
      simp [hused k hk]
    refine ⟨{ message := m,
              signatures := (requiredSigners m).map
                (fun a => (a, signBytes ⟨a⟩ (serializeMessage m))) }, ?_, rfl, ?_, ?_⟩
    · unfold assemble
      rw [hnone, hnone2]
    · simp [List.map_map, Function.comp_def]
    · intro p hp
      rcases List.mem_map.mp hp with ⟨a, _, rfl⟩
      simp [verifySignature, signBytes]

/-- Witness for C5: a message with one required signer — withholding the key
yields `MissingSigner`, supplying exactly it yields a fully signed unit. -/
theorem assemble_spec_witness :
    (∃ a ∈ requiredSigners exMsgC5, ∀ k ∈ ([] : List SigningKey), k.addr ≠ a)
    ∧ (∃ a, assemble exMsgC5 [] = .error (.missingSigner a)
        ∧ a ∈ requiredSigners exMsgC5 ∧ ∀ k ∈ ([] : List SigningKey), k.addr ≠ a)
    ∧ (∀ a ∈ requiredSigners exMsgC5, ∃ k ∈ exKeysC5, k.addr = a)
    ∧ (∀ k ∈ exKeysC5, k.addr ∈ requiredSigners exMsgC5)
    ∧ (∃ u, assemble exMsgC5 exKeysC5 = .ok u
        ∧ u.message = exMsgC5
        ∧ u.signatures.map Prod.fst = requiredSigners exMsgC5
        ∧ ∀ p ∈ u.signatures, verifySignature p.1 p.2 (serializeMessage exMsgC5) = true) :=
  ⟨by decide,
   (assemble_spec exMsgC5 []).1 (by decide),
   by decide, by decide,
   (assemble_spec exMsgC5 exKeysC5).2.2 (by decide) (by decide)⟩

/-- C6: `submit` derives the unit's identifier from the unit's first
signature alone, before any network interaction; on acceptance it returns
`Accepted` with exactly that identifier, and on rejection it returns
`Rejected` with the reason and the identifier extracted from the error
payload when one is present, `none` otherwise. -/
theorem submit_spec (u : SignedUnit) (resp : RpcResponse) :
    unitIdentifier u = u.signatures.head?.map (fun p => identifierOfSignature p.2)
    ∧ (resp = .accepted → submit u resp = .accepted (unitIdentifier u))
    ∧ (∀ reason payload, resp = .rejected reason payload →
        submit u resp = .rejected reason (extractIdentifierFromFailure payload)
        ∧ (∀ i, extractIdentifierFromFailure payload = some i →
            ∃ p ∈ payload, p.1 = identifierTag ∧ p.2 = i)
        ∧ ((∀ p ∈ payload, p.1 ≠ identifierTag) →
            submit u resp = .rejected reason none)) := by
  refine ⟨rfl, ?_, ?_⟩
  · rintro rfl
    rfl
  · rintro reason payload rfl
    refine ⟨rfl, ?_, ?_⟩
    · intro i hi
      unfold extractIdentifierFromFailure at hi
      cases hfind : payload.find? (fun p => p.1 == identifierTag) with
      | none => rw [hfind] at hi; cases hi
      | some p0 =>
        rw [hfind] at hi
        have hp := List.find?_some hfind
        simp at hp
        have hmem := List.mem_of_find?_eq_some hfind
        simp at hi
        exact ⟨p0, hmem, hp, hi⟩
    · intro hnotag
      have hnone : payload.find? (fun p => p.1 == identifierTag) = none := by
        apply List.find?_eq_none.mpr
        intro p hp
        simp [hnotag p hp]
      show SubmissionOutcome.rejected reason (extractIdentifierFromFailure payload) = _
      unfold extractIdentifierFromFailure
      rw [hnone]
      rfl

/-- Witness for C6: one unit submitted against an accepting endpoint, a
rejection that reports the identifier, and a rejection that does not. -/
theorem submit_spec_witness :
    submit exUnitC6 .accepted = .accepted (unitIdentifier exUnitC6)
    ∧ (submit exUnitC6 (.rejected 5 [(identifierTag, 77)])
        = .rejected 5 (extractIdentifierFromFailure [(identifierTag, 77)])
       ∧ extractIdentifierFromFailure [(identifierTag, 77)] = some 77)
    ∧ ((∀ p ∈ [((3 : Nat), (4 : Nat))], p.1 ≠ identifierTag)
       ∧ submit exUnitC6 (.rejected 6 [(3, 4)]) = .rejected 6 none) :=
  ⟨(submit_spec exUnitC6 .accepted).2.1 rfl,
   ⟨((submit_spec exUnitC6 (.rejected 5 [(identifierTag, 77)])).2.2 5
       [(identifierTag, 77)] rfl).1,
    by decide⟩,
   ⟨by decide,
    ((submit_spec exUnitC6 (.rejected 6 [(3, 4)])).2.2 6 [(3, 4)] rfl).2.2 (by decide)⟩⟩

/-- C9: when the mapping loaded from the local address cache has no
`tokenMint` entry, both the mint-tokens and the update-metadata script run
performs only the load and returns immediately: no address derivation, no
instruction construction, no transaction build, no network submission. -/
theorem scripts_return_without_tokenMint (localKeys : Option (List (String × Nat)))
    (h : lookupTokenMint localKeys = none) :
    mintTokensScript localKeys = [.loadKeys]
    ∧ updateMetadataScript localKeys = [.loadKeys]
    ∧ ∀ a ∈ mintTokensScript localKeys ++ updateMetadataScript localKeys,
        a ≠ .deriveAddress ∧ a ≠ .buildInstruction ∧ a ≠ .buildTx ∧ a ≠ .submitTx := by
  have hm : mintTokensScript localKeys = [.loadKeys] := by
    unfold mintTokensScript
    rw [h]
  have hu : updateMetadataScript localKeys = [.loadKeys] := by
    unfold updateMetadataScript
    rw [h]
  refine ⟨hm, hu, ?_⟩
  intro a ha
  rw [hm, hu] at ha
  simp at ha
  subst ha
  exact ⟨by simp, by simp, by simp, by simp⟩

/-- Witness for C9: a cache file that exists but has no `tokenMint` entry. -/
theorem scripts_return_without_tokenMint_witness :
    lookupTokenMint (some [("otherKey", 5)]) = none
    ∧ (mintTokensScript (some [("otherKey", 5)]) = [.loadKeys]
        ∧ updateMetadataScript (some [("otherKey", 5)]) = [.loadKeys]
        ∧ ∀ a ∈ mintTokensScript (some [("otherKey", 5)])
              ++ updateMetadataScript (some [("otherKey", 5)]),
            a ≠ .deriveAddress ∧ a ≠ .buildInstruction ∧ a ≠ .buildTx ∧ a ≠ .submitTx) :=
  ⟨by decide, scripts_return_without_tokenMint (some [("otherKey", 5)]) (by decide)⟩

/-- C10: in the complex-transaction script the payer is always in the signing
set, the account-creation instruction is in the instruction list exactly when
the test wallet account did not exist on chain, and the test wallet's key is
in the signing set exactly when that instruction was added. -/
theorem complexTx_signer_selection (env : ComplexTxEnv)
    (hne : env.payerAddr ≠ env.testWalletAddr) :
    env.payerAddr ∈ complexTxSigners env
    ∧ (createAccountOp env.payerAddr env.testWalletAddr (env.rentExemption + 2000000) 0
          ∈ complexTxInstructions env ↔ env.testWalletAccountInfo = none)
    ∧ (env.testWalletAddr ∈ complexTxSigners env ↔
        createAccountOp env.payerAddr env.testWalletAddr (env.rentExemption + 2000000) 0
          ∈ complexTxInstructions env) := by
  have hdistinct : ∀ x y l,
      createAccountOp env.payerAddr env.testWalletAddr (env.rentExemption + 2000000) 0
        ≠ transferOp x y l := by
    intro x y l hEq
    simp [createAccountOp, transferOp] at hEq
  have hnotmem : createAccountOp env.payerAddr env.testWalletAddr
      (env.rentExemption + 2000000) 0 ∉
      [transferOp env.payerAddr env.staticAddr 100000,
       transferOp env.payerAddr env.testWalletAddr 100000,
       transferOp env.payerAddr env.staticAddr 100000] := by
    intro hmem
    rcases List.mem_cons.mp hmem with heq | hmem
    · exact hdistinct _ _ _ heq
    rcases List.mem_cons.mp hmem with heq | hmem
    · exact hdistinct _ _ _ heq
    rcases List.mem_cons.mp hmem with heq | hmem
    · exact hdistinct _ _ _ heq
    · exact absurd hmem (List.not_mem_nil _)
  cases hinfo : env.testWalletAccountInfo with
  | none =>
    refine ⟨?_, ?_, ?_⟩
    · simp [complexTxSigners]
    · simp only [complexTxInstructions, createTestAccountIx, hinfo]
      simp
    · simp only [complexTxSigners, complexTxInstructions, createTestAccountIx, hinfo]
      simp
  | some v =>
    refine ⟨?_, ?_, ?_⟩
    · simp [complexTxSigners]
    · simp only [complexTxInstructions, createTestAccountIx, hinfo]
      simp only [List.nil_append]
      constructor
      · intro hmem
        exact absurd hmem hnotmem
      · intro habs
        cases habs
    · simp only [complexTxSigners, complexTxInstructions, createTestAccountIx, hinfo]
      simp only [List.nil_append]
      constructor
      · intro hmem
        rcases List.mem_cons.mp hmem with heq | hmem
        · exact absurd heq.symm hne
        · exact absurd hmem (List.not_mem_nil _)
      · intro hmem
        exact absurd hmem hnotmem

/-- Witness for C10: distinct payer and test wallet, test account absent on
chain — the creation instruction and the test wallet signature are present. -/
theorem complexTx_signer_selection_witness :
    ((1 : Nat) ≠ (2 : Nat))
    ∧ ((1 : Nat) ∈ complexTxSigners ⟨1, 2, 3, 100, none⟩
        ∧ (createAccountOp 1 2 (100 + 2000000) 0
              ∈ complexTxInstructions ⟨1, 2, 3, 100, none⟩ ↔
            (⟨1, 2, 3, 100, none⟩ : ComplexTxEnv).testWalletAccountInfo = none)
        ∧ ((2 : Nat) ∈ complexTxSigners ⟨1, 2, 3, 100, none⟩ ↔
            createAccountOp 1 2 (100 + 2000000) 0
              ∈ complexTxInstructions ⟨1, 2, 3, 100, none⟩)) :=
  ⟨by decide, complexTx_signer_selection ⟨1, 2, 3, 100, none⟩ (by decide)⟩
